import Mathlib

/-
Verification of the natural-language parameter-extraction and date-range
resolution engine of the weather-agent repository
(`weatheragent/sub_agents/meterologist/agent.py` and
`weatheragent/sub_agents/earthquake_agent/agent.py`).

Strings are modelled as `List Char` (ASCII, as all inputs of interest are);
Python `datetime` dates as explicit year/month/day records; Python floats as
exact rationals (every constant involved — 1.60934, 2.5, 4.5, … — is treated
as its decimal value); Python regexes by a small backtracking matcher over a
token representation of exactly the pattern strings that appear in the source.
-/

deriving instance DecidableEq for Except

namespace WeatherAgent

/-! ### Characters and basic string operations -/

/-- Lowercase an ASCII character, as Python `str.lower` does on ASCII input. -/
def lowerChar (c : Char) : Char :=
  if 65 ≤ c.toNat && c.toNat ≤ 90 then Char.ofNat (c.toNat + 32) else c

/-- Python regex `\s` (ASCII): space, tab, newline, carriage return, vertical tab, form feed. -/
def isSpaceChar (c : Char) : Bool :=
  c == ' ' || c == '\t' || c == '\n' || c == '\r' || c.toNat == 11 || c.toNat == 12

/-- Python regex `\d` on ASCII input. -/
def isDigitChar (c : Char) : Bool :=
  48 ≤ c.toNat && c.toNat ≤ 57

/-- Regex class `[a-zA-Z]`. -/
def isAlphaChar (c : Char) : Bool :=
  (97 ≤ c.toNat && c.toNat ≤ 122) || (65 ≤ c.toNat && c.toNat ≤ 90)

/-- Regex `\w` (ASCII): letters, digits, underscore; used for `\b` boundaries. -/
def isWordChar (c : Char) : Bool :=
  isAlphaChar c || isDigitChar c || c == '_'

/-- Regex class `[a-zA-Z\s]` used by the location capture groups. -/
def isSpanChar (c : Char) : Bool :=
  isAlphaChar c || isSpaceChar c

/-- String literal to character list. -/
def strL (s : String) : List Char := s.toList

/-- Lowercased character list of a string (Python `query.lower()`). -/
def lowerList (s : String) : List Char := s.toList.map lowerChar

/-- Numeric value of an ASCII digit character. -/
def charVal (c : Char) : Nat := c.toNat - 48

/-- Python `int()` of a digit string. -/
def parseNatChars (cs : List Char) : Nat :=
  cs.foldl (fun a c => 10 * a + charVal c) 0

/-- Decimal-digit character for a value below ten. -/
def digitChar : Nat → Char
  | 0 => '0' | 1 => '1' | 2 => '2' | 3 => '3' | 4 => '4'
  | 5 => '5' | 6 => '6' | 7 => '7' | 8 => '8' | _ => '9'

/-- Big-endian decimal digits of `n`, via a fuel argument (`fuel ≥ n` suffices). -/
def natDigitsAux : Nat → Nat → List Char
  | 0, _ => []
  | _ + 1, 0 => []
  | fuel + 1, n => natDigitsAux fuel (n / 10) ++ [digitChar (n % 10)]

/-- Decimal representation of a natural number, as Python would print it. -/
def natDigits (n : Nat) : List Char :=
  if n = 0 then ['0'] else natDigitsAux n n

/-- Python `float()` of a string shaped `digits` or `digits.digits`, as an
exact rational: the decimal value `ip.fp` is `(ip·10^k + fp) / 10^k`. -/
def parseDecChars (cs : List Char) : ℚ :=
  let ip := cs.takeWhile isDigitChar
  let rest := cs.drop ip.length
  match rest with
  | '.' :: fp =>
    mkRat (parseNatChars ip * 10 ^ fp.length + parseNatChars fp) (10 ^ fp.length)
  | _ => (parseNatChars ip : ℚ)

/-- Does `cs` start with `s`? -/
def startsWithL : List Char → List Char → Bool
  | [], _ => true
  | _ :: _, [] => false
  | a :: as, b :: bs => a == b && startsWithL as bs

/-- Python `needle in hay` substring test. -/
def containsSub (needle : List Char) : List Char → Bool
  | [] => startsWithL needle []
  | c :: rest => startsWithL needle (c :: rest) || containsSub needle rest

/-- Leading-whitespace removal (first half of Python `str.strip`). -/
def dropLeading (cs : List Char) : List Char := cs.dropWhile isSpaceChar

/-- Trailing-whitespace removal (second half of Python `str.strip`). -/
def dropTrailing : List Char → List Char
  | [] => []
  | c :: rest =>
    match dropTrailing rest with
    | [] => if isSpaceChar c then [] else [c]
    | r => c :: r

/-- Python `str.strip()`. -/
def stripChars (cs : List Char) : List Char := dropTrailing (dropLeading cs)

/-- First maximal run of digits in `cs`: `re.findall(r'\d+', cs)[0]` when it exists. -/
def firstNum : List Char → Option (List Char)
  | [] => none
  | c :: cs =>
    if isDigitChar c then some (c :: cs.takeWhile isDigitChar) else firstNum cs

/-- First window of four consecutive digits: `re.findall(r'\d{4}', cs)[0]` when it exists. -/
def findFourDigits : List Char → Option (List Char)
  | a :: b :: c :: d :: rest =>
    if isDigitChar a && isDigitChar b && isDigitChar c && isDigitChar d then some [a, b, c, d]
    else findFourDigits (b :: c :: d :: rest)
  | _ => none

/-- Test for `re.match(r'^\d{4}$', cs)`. -/
def isFourDigits (cs : List Char) : Bool :=
  cs.length == 4 && cs.all isDigitChar

/-! ### A small backtracking regex matcher

Tokens cover exactly the constructs appearing in the source's patterns:
literals, `\s+`, `\s*`, capturing `(\d+)`, capturing `(\d+(?:\.\d+)?)`,
optional trailing characters (`s?`), an optional literal-plus-`\s+`
(`(?:or\s+)?`), non-capturing literal alternation, the lazy capturing span
`([a-zA-Z\s]+?)` and the end-marker alternation `(?:\s|$)`.  `spanAcc` is an
internal state of the matcher for partially consumed spans. -/

inductive Tok where
  | lit (s : List Char)
  | ws
  | ws0
  | num
  | dec
  | optC (c : Char)
  | optLitWs (s : List Char)
  | alts (ss : List (List Char))
  | wordspan
  | spanAcc (acc : List Char)
  | wsEnd
deriving DecidableEq

/-- Depth budget contributed by one token (used only to size the fuel). -/
def tokWeight : Tok → Nat
  | .lit s => s.length + 1
  | .alts ss => ss.foldl (fun a s => a + s.length + 1) 1
  | .wordspan => 3
  | .spanAcc _ => 2
  | .optLitWs s => s.length + 2
  | _ => 2

/-- Fuel bound for a whole pattern. -/
def patWeight (p : List Tok) : Nat := p.foldl (fun a t => a + tokWeight t) 0

/-- Match a token list against the head of `cs`, with Python `re` backtracking
semantics (greedy where the source patterns are greedy — `\s+`/`\s*` prefer
the longest whitespace run and give characters back on failure — lazy for the
span capture, alternation in source order; the digit runs of `(\d+)` and
`(\d+(?:\.\d+)?)` are taken maximally, which is exact because no token that
can follow them in the source's patterns matches a digit).
Returns the capture list on success.
Every recursive call strictly decreases the total weight of remaining tokens
plus remaining characters, so the fuel chosen in `searchToks` never runs out. -/
def matchToks : Nat → List Tok → List Char → Option (List (List Char))
  | 0, _, _ => none
  | _ + 1, [], _ => some []
  | fuel + 1, t :: ts, cs =>
    match t with
    | .lit s => if startsWithL s cs then matchToks fuel ts (cs.drop s.length) else none
    | .ws =>
      match cs with
      | c :: rest =>
        if isSpaceChar c then
          match matchToks fuel (.ws :: ts) rest with
          | some caps => some caps
          | none => matchToks fuel ts rest
        else none
      | [] => none
    | .ws0 =>
      match cs with
      | c :: rest =>
        if isSpaceChar c then
          match matchToks fuel (.ws0 :: ts) rest with
          | some caps => some caps
          | none => matchToks fuel ts (c :: rest)
        else matchToks fuel ts (c :: rest)
      | [] => matchToks fuel ts []
    | .num =>
      let ds := cs.takeWhile isDigitChar
      if ds.isEmpty then none
      else
        match matchToks fuel ts (cs.drop ds.length) with
        | some caps => some (ds :: caps)
        | none => none
    | .dec =>
      let ds := cs.takeWhile isDigitChar
      if ds.isEmpty then none
      else
        let rest := cs.drop ds.length
        match rest with
        | '.' :: r2 =>
          let fs := r2.takeWhile isDigitChar
          if fs.isEmpty then
            match matchToks fuel ts rest with
            | some caps => some (ds :: caps)
            | none => none
          else
            match matchToks fuel ts (r2.drop fs.length) with
            | some caps => some ((ds ++ '.' :: fs) :: caps)
            | none =>
              match matchToks fuel ts rest with
              | some caps => some (ds :: caps)
              | none => none
        | _ =>
          match matchToks fuel ts rest with
          | some caps => some (ds :: caps)
          | none => none
    | .optC c =>
      match cs with
      | c2 :: rest =>
        if c2 == c then
          match matchToks fuel ts rest with
          | some caps => some caps
          | none => matchToks fuel ts cs
        else matchToks fuel ts cs
      | [] => matchToks fuel ts cs
    | .optLitWs s =>
      if startsWithL s cs then
        let cs2 := cs.drop s.length
        let sp := cs2.takeWhile isSpaceChar
        if sp.isEmpty then matchToks fuel ts cs
        else
          match matchToks fuel ts (cs2.drop sp.length) with
          | some caps => some caps
          | none => matchToks fuel ts cs
      else matchToks fuel ts cs
    | .alts ss =>
      match ss with
      | [] => none
      | a :: more =>
        if startsWithL a cs then
          match matchToks fuel ts (cs.drop a.length) with
          | some caps => some caps
          | none => matchToks fuel (.alts more :: ts) cs
        else matchToks fuel (.alts more :: ts) cs
    | .wordspan => matchToks fuel (.spanAcc [] :: ts) cs
    | .spanAcc acc =>
      match cs with
      | [] => none
      | c :: rest =>
        if isSpanChar c then
          match matchToks fuel ts rest with
          | some caps => some ((acc ++ [c]) :: caps)
          | none => matchToks fuel (.spanAcc (acc ++ [c]) :: ts) rest
        else none
    | .wsEnd =>
      match cs with
      | [] => matchToks fuel ts []
      | c :: rest =>
        if isSpaceChar c then
          match matchToks fuel ts rest with
          | some caps => some caps
          | none => none
        else none

/-- Attempt a match anchored at the current position. -/
def searchToks (p : List Tok) (cs : List Char) : Option (List (List Char)) :=
  matchToks (patWeight p + cs.length + 1) p cs

/-- Python `re.search`: leftmost matching position wins. -/
def search (p : List Tok) : List Char → Option (List (List Char))
  | [] => searchToks p []
  | cs@(_ :: rest) =>
    match searchToks p cs with
    | some caps => some caps
    | none => search p rest

/-- Number of capture groups of a pattern (static, as in Python `match.groups()`). -/
def capCount (p : List Tok) : Nat :=
  p.countP fun t =>
    match t with
    | .num => true
    | .dec => true
    | .wordspan => true
    | _ => false

/-! ### Location extractor (`_extract_location_from_query`) -/

/-- `r'in\s+([a-zA-Z\s]+?)(?:\s+(?:last|past|during|within|over))'` -/
def patLocIn : List Tok :=
  [.lit (strL "in"), .ws, .wordspan, .ws,
   .alts [strL "last", strL "past", strL "during", strL "within", strL "over"]]

/-- `r'near\s+([a-zA-Z\s]+?)(?:\s+(?:last|past|during|within|over))'` -/
def patLocNear : List Tok :=
  [.lit (strL "near"), .ws, .wordspan, .ws,
   .alts [strL "last", strL "past", strL "during", strL "within", strL "over"]]

/-- `r'around\s+([a-zA-Z\s]+?)(?:\s+(?:last|past|during|within|over))'` -/
def patLocAround : List Tok :=
  [.lit (strL "around"), .ws, .wordspan, .ws,
   .alts [strL "last", strL "past", strL "during", strL "within", strL "over"]]

/-- `r'(?:earthquakes?|seismic|activity)\s+(?:in|near|around)\s+([a-zA-Z\s]+?)(?:\s|$)'`
(the greedy `s?` of `earthquakes?` is expanded into alternative order). -/
def patLocTopic : List Tok :=
  [.alts [strL "earthquakes", strL "earthquake", strL "seismic", strL "activity"], .ws,
   .alts [strL "in", strL "near", strL "around"], .ws, .wordspan, .wsEnd]

/-- The source's `location_patterns` list, in order. -/
def locationTable : List (List Tok) := [patLocIn, patLocNear, patLocAround, patLocTopic]

/-- Whether `prev` ends a regex word (`\b` test on the left neighbour). -/
def boundaryL : Option Char → Bool
  | none => true
  | some c => !isWordChar c

/-- `\b` test on the right neighbour. -/
def boundaryR : List Char → Bool
  | [] => true
  | c :: _ => !isWordChar c

/-- `re.sub(r'\b(the|area|region)\b', '', location)`: delete whole-word occurrences
of the three filler words, scanning left to right without rescanning replacements. -/
def subStop : Option Char → List Char → List Char
  | prev, 't' :: 'h' :: 'e' :: rest =>
    if boundaryL prev && boundaryR rest then subStop (some 'e') rest
    else 't' :: subStop (some 't') ('h' :: 'e' :: rest)
  | prev, 'a' :: 'r' :: 'e' :: 'a' :: rest =>
    if boundaryL prev && boundaryR rest then subStop (some 'a') rest
    else 'a' :: subStop (some 'a') ('r' :: 'e' :: 'a' :: rest)
  | prev, 'r' :: 'e' :: 'g' :: 'i' :: 'o' :: 'n' :: rest =>
    if boundaryL prev && boundaryR rest then subStop (some 'n') rest
    else 'r' :: subStop (some 'r') ('e' :: 'g' :: 'i' :: 'o' :: 'n' :: rest)
  | _, c :: rest => c :: subStop (some c) rest
  | _, [] => []

/-- Clean a captured location span: strip the filler words, then whitespace. -/
def cleanLocation (cs : List Char) : List Char := stripChars (subStop none cs)

/-- The source's pattern loop: on the first pattern whose search succeeds, the
cleaned capture is returned (as `none` when cleaning left nothing) — later
patterns are not tried. -/
def runLocationTable : List (List Tok) → List Char → Option (List Char)
  | [], _ => none
  | p :: rest, cs =>
    match search p cs with
    | some caps =>
      let loc := cleanLocation (caps.headD [])
      if loc.isEmpty then none else some loc
    | none => runLocationTable rest cs

/-- `_extract_location_from_query(query)`. -/
def _extract_location_from_query (query : String) : Option (List Char) :=
  runLocationTable locationTable (lowerList query)

/-! ### Day-count extractor (`_extract_time_period_from_query`)

The Python handler evaluates `int(match.group(1))` when the table multiplier is
1; for the `(r'today', 1)` entry the pattern has no group 1 and the call raises
`IndexError`, modelled as `Except.error ()`. -/

def patLastNDays : List Tok := [.lit (strL "last"), .ws, .num, .ws, .lit (strL "day"), .optC 's']
def patPastNDays : List Tok := [.lit (strL "past"), .ws, .num, .ws, .lit (strL "day"), .optC 's']
def patNDays : List Tok := [.num, .ws, .lit (strL "day"), .optC 's']
def patLastWeek : List Tok := [.lit (strL "last"), .ws, .lit (strL "week")]
def patPastWeek : List Tok := [.lit (strL "past"), .ws, .lit (strL "week")]
def patThisWeek : List Tok := [.lit (strL "this"), .ws, .lit (strL "week")]
def patLastMonth : List Tok := [.lit (strL "last"), .ws, .lit (strL "month")]
def patPastMonth : List Tok := [.lit (strL "past"), .ws, .lit (strL "month")]
def patThisMonth : List Tok := [.lit (strL "this"), .ws, .lit (strL "month")]
def patLastNWeeks : List Tok := [.lit (strL "last"), .ws, .num, .ws, .lit (strL "week"), .optC 's']
def patPastNWeeks : List Tok := [.lit (strL "past"), .ws, .num, .ws, .lit (strL "week"), .optC 's']
def patNWeeks : List Tok := [.num, .ws, .lit (strL "week"), .optC 's']
def patToday : List Tok := [.lit (strL "today")]
def patYesterday : List Tok := [.lit (strL "yesterday")]
def patRecent : List Tok := [.lit (strL "recent")]

/-- The source's `time_patterns` list of `(pattern, multiplier)` pairs, in order. -/
def timeTable : List (List Tok × Nat) :=
  [(patLastNDays, 1), (patPastNDays, 1), (patNDays, 1),
   (patLastWeek, 7), (patPastWeek, 7), (patThisWeek, 7),
   (patLastMonth, 30), (patPastMonth, 30), (patThisMonth, 30),
   (patLastNWeeks, 7), (patPastNWeeks, 7), (patNWeeks, 7),
   (patToday, 1), (patYesterday, 2), (patRecent, 14)]

/-- The source's handler loop: multiplier 1 reads group 1 (raising when the
pattern has none), multiplier 7 multiplies group 1 by 7 when the pattern has a
group and returns 7 otherwise, any other multiplier is returned as is. -/
def runTimeTable : List (List Tok × Nat) → List Char → Except Unit (Option Nat)
  | [], _ => .ok none
  | (p, mult) :: rest, cs =>
    match search p cs with
    | some caps =>
      if mult = 1 then
        if capCount p = 0 then .error () else .ok (some (parseNatChars (caps.headD [])))
      else if mult = 7 then
        if capCount p = 0 then .ok (some 7) else .ok (some (7 * parseNatChars (caps.headD [])))
      else .ok (some mult)
    | none => runTimeTable rest cs

/-- `_extract_time_period_from_query(query)`; `Except.error ()` is the
propagated `IndexError` of the broken `today` rule. -/
def _extract_time_period_from_query (query : String) : Except Unit (Option Nat) :=
  runTimeTable timeTable (lowerList query)

/-! ### Magnitude extractor (`_extract_magnitude_from_query`) -/

def patMagPlus : List Tok := [.lit (strL "magnitude"), .ws, .dec, .lit (strL "+")]
def patMagAbove : List Tok :=
  [.lit (strL "magnitude"), .ws, .dec, .ws, .optLitWs (strL "or"),
   .alts [strL "above", strL "higher"]]
def patMagShort : List Tok := [.lit (strL "mag"), .ws, .dec, .lit (strL "+")]
def patPlusMag : List Tok := [.dec, .lit (strL "+"), .ws, .lit (strL "magnitude")]
def patAboveMag : List Tok := [.lit (strL "above"), .ws, .lit (strL "magnitude"), .ws, .dec]
def patStrongerThan : List Tok := [.lit (strL "stronger"), .ws, .lit (strL "than"), .ws, .dec]
def patSignificant : List Tok := [.lit (strL "significant")]
def patMajor : List Tok := [.lit (strL "major")]
def patMinor : List Tok := [.lit (strL "minor")]

/-- Per-pattern handler of the magnitude loop: the source compares the pattern
itself against `r'significant'` / `r'major'` / `r'minor'` and returns the fixed
value, reading group 1 otherwise. -/
inductive MagRule where
  | fromNum
  | fixedMag (q : ℚ)
deriving DecidableEq

/-- The source's `magnitude_patterns` list (numeric patterns first, then the
three qualitative words), with the handler each pattern is dispatched to. -/
def magTable : List (List Tok × MagRule) :=
  [(patMagPlus, .fromNum), (patMagAbove, .fromNum), (patMagShort, .fromNum),
   (patPlusMag, .fromNum), (patAboveMag, .fromNum), (patStrongerThan, .fromNum),
   (patSignificant, .fixedMag 4.5), (patMajor, .fixedMag 6.0), (patMinor, .fixedMag 2.0)]

/-- First matching rule wins. -/
def runMagTable : List (List Tok × MagRule) → List Char → Option ℚ
  | [], _ => none
  | (p, r) :: rest, cs =>
    match search p cs with
    | some caps =>
      match r with
      | .fromNum => some (parseDecChars (caps.headD []))
      | .fixedMag q => some q
    | none => runMagTable rest cs

/-- `_extract_magnitude_from_query(query)`. -/
def _extract_magnitude_from_query (query : String) : Option ℚ :=
  runMagTable magTable (lowerList query)

/-! ### Radius extractor (`_extract_radius_from_query`) -/

def patWithinKm : List Tok := [.lit (strL "within"), .ws, .num, .ws0, .lit (strL "km")]
def patKmRadius : List Tok := [.num, .ws0, .lit (strL "km"), .ws, .lit (strL "radius")]
def patKilometers : List Tok := [.num, .ws, .lit (strL "kilometer"), .optC 's']
def patWithinMiles : List Tok := [.lit (strL "within"), .ws, .num, .ws, .lit (strL "mile"), .optC 's']

/-- `int(value * 1.60934)` — multiplication by the decimal constant followed by
Python `int()` truncation, which on naturals is floor division. -/
def milesToKm (n : Nat) : Nat := n * 160934 / 100000

/-- The source's `radius_patterns` with the miles flag (`'mile' in pattern`). -/
def radiusTable : List (List Tok × Bool) :=
  [(patWithinKm, false), (patKmRadius, false), (patKilometers, false), (patWithinMiles, true)]

/-- First matching rule wins; miles patterns convert to kilometres. -/
def runRadiusTable : List (List Tok × Bool) → List Char → Option Nat
  | [], _ => none
  | (p, isMiles) :: rest, cs =>
    match search p cs with
    | some caps =>
      let v := parseNatChars (caps.headD [])
      some (if isMiles then milesToKm v else v)
    | none => runRadiusTable rest cs

/-- `_extract_radius_from_query(query)`. -/
def _extract_radius_from_query (query : String) : Option Nat :=
  runRadiusTable radiusTable (lowerList query)

/-! ### Calendar dates

Python `datetime` values are modelled at day granularity (year, month, day in
the proleptic Gregorian calendar).  The source formats every computed datetime
with `strftime("%Y-%m-%d")` and re-parses it with `strptime` before comparing,
so the time-of-day component never influences any branch modelled here: the
check `end_dt > today - timedelta(days=5)` on a midnight `end_dt` and a
clock-time `today` holds exactly when the date of `end_dt` is later than the
date of `today` minus five days. -/

structure Date where
  year : Int
  month : Nat
  day : Nat
deriving DecidableEq

/-- Gregorian leap-year test. -/
def isLeap (y : Int) : Bool := (y % 4 == 0 && y % 100 != 0) || y % 400 == 0

/-- Days in a month (months outside 1..12 never arise for valid dates). -/
def daysInMonth (y : Int) (m : Nat) : Nat :=
  if m == 2 then (if isLeap y then 29 else 28)
  else if m == 4 || m == 6 || m == 9 || m == 11 then 30
  else 31

/-- Month and day are within range. -/
def dateValidMD (d : Date) : Bool :=
  decide (1 ≤ d.month) && decide (d.month ≤ 12) &&
  decide (1 ≤ d.day) && decide (d.day ≤ daysInMonth d.year d.month)

/-- A date representable as a Python `datetime` (year 1..9999) that also
round-trips through `strftime("%Y-%m-%d")`/`strptime`. -/
def dateValid (d : Date) : Bool :=
  dateValidMD d && decide (1 ≤ d.year) && decide (d.year ≤ 9999)

/-- The previous calendar day. -/
def prevDay (d : Date) : Date :=
  if 1 < d.day then ⟨d.year, d.month, d.day - 1⟩
  else if 1 < d.month then ⟨d.year, d.month - 1, daysInMonth d.year (d.month - 1)⟩
  else ⟨d.year - 1, 12, 31⟩

/-- `d - timedelta(days=n)`. -/
def subDays (d : Date) : Nat → Date
  | 0 => d
  | n + 1 => subDays (prevDay d) n

/-- Strict comparison of dates (equals Python `datetime` comparison at the day
granularity relevant here). -/
def dateLt (a b : Date) : Bool :=
  if a.year < b.year then true
  else if b.year < a.year then false
  else if a.month < b.month then true
  else if b.month < a.month then false
  else decide (a.day < b.day)

/-! ### Date-range resolution of `get_historical_weather`

`get_historical_weather` (meterologist agent) resolves its `time_period` /
`start_date` / `end_date` arguments into a concrete date range and validates it
before building the archive-API request.  The network lookup of the city that
precedes this logic, and the request itself, are external collaborators; the
model covers exactly the date logic.  `today` stands for `datetime.now()`. -/

inductive WErr where
  /-- "Historical weather data has a 5-day delay..." -/
  | tooRecent
  /-- "Historical weather data is only available from 1940 onwards." -/
  | tooOld
  /-- "Unable to parse time period..." -/
  | unparseableExpr
  /-- "Unable to extract number from time period..." -/
  | numberMissing
  /-- "Invalid date format. Please use YYYY-MM-DD format." (strptime failure) -/
  | invalidFormat
  /-- "Either provide both start_date and end_date, or use time_period..." -/
  | missingDates
  /-- "Please specify year for winter/summer/spring/autumn ..." -/
  | yearMissing
  /-- A `ValueError` escaping `datetime(...)`/`.replace(...)` for a year outside
  1..9999, caught by the function's outer `except` as a generic error. -/
  | dateRangeErr
deriving DecidableEq

/-- The `while months_ago <= 0: months_ago += 12; year_offset -= 1` loop. -/
def normMonth (m : Int) (yoff : Int) : Int × Int :=
  if m ≤ 0 then normMonth (m + 12) (yoff - 1) else (m, yoff)
termination_by (1 - m).toNat
decreasing_by omega

/-- Parse the natural-language `time_period` string (already the behaviour on
`time_period.lower().strip()` is applied inside).  Mirrors the if/elif chain of
the source: relative spans, a single four-digit year, a year range, then the
four seasons. -/
def parseTimePeriod (tp : List Char) (today : Date) : Except WErr (Date × Date) :=
  let s := stripChars (tp.map lowerChar)
  if containsSub (strL "past") s || containsSub (strL "last") s || containsSub (strL "previous") s then
    match firstNum s with
    | none => .error .numberMissing
    | some ds =>
      let n : Int := parseNatChars ds
      if containsSub (strL "year") s then
        if today.year - n < 1 || 9999 < today.year - n then .error .dateRangeErr
        else .ok (⟨today.year - n, 1, 1⟩, subDays today 5)
      else if containsSub (strL "month") s then
        let (m, yoff) := normMonth ((today.month : Int) - n) 0
        if today.year + yoff < 1 || 9999 < today.year + yoff then .error .dateRangeErr
        else .ok (⟨today.year + yoff, m.toNat, 1⟩, subDays today 5)
      else if containsSub (strL "day") s then
        .ok (subDays today (parseNatChars ds + 5), subDays today 5)
      else if containsSub (strL "week") s then
        .ok (subDays today (7 * parseNatChars ds + 5), subDays today 5)
      else .error .unparseableExpr
  else if isFourDigits s then
    let y : Int := parseNatChars s
    if y < 1 then .error .dateRangeErr
    else .ok (⟨y, 1, 1⟩, ⟨y, 12, 31⟩)
  else if
    match s with
    | [a, b, c, d, '-', e, f, g, h] =>
      isDigitChar a && isDigitChar b && isDigitChar c && isDigitChar d &&
      isDigitChar e && isDigitChar f && isDigitChar g && isDigitChar h
    | _ => false
  then
    let y1 : Int := parseNatChars (s.take 4)
    let y2 : Int := parseNatChars (s.drop 5)
    if y1 < 1 || y2 < 1 then .error .dateRangeErr
    else .ok (⟨y1, 1, 1⟩, ⟨y2, 12, 31⟩)
  else if containsSub (strL "winter") s then
    match findFourDigits s with
    | some ys =>
      let y : Int := parseNatChars ys
      if y < 1 || 9999 < y + 1 then .error .dateRangeErr
      else .ok (⟨y, 12, 1⟩, ⟨y + 1, 2, 28⟩)
    | none => .error .yearMissing
  else if containsSub (strL "summer") s then
    match findFourDigits s with
    | some ys =>
      let y : Int := parseNatChars ys
      if y < 1 then .error .dateRangeErr else .ok (⟨y, 6, 1⟩, ⟨y, 8, 31⟩)
    | none => .error .yearMissing
  else if containsSub (strL "spring") s then
    match findFourDigits s with
    | some ys =>
      let y : Int := parseNatChars ys
      if y < 1 then .error .dateRangeErr else .ok (⟨y, 3, 1⟩, ⟨y, 5, 31⟩)
    | none => .error .yearMissing
  else if containsSub (strL "autumn") s || containsSub (strL "fall") s then
    match findFourDigits s with
    | some ys =>
      let y : Int := parseNatChars ys
      if y < 1 then .error .dateRangeErr else .ok (⟨y, 9, 1⟩, ⟨y, 11, 30⟩)
    | none => .error .yearMissing
  else .error .unparseableExpr

/-- The validation block of `get_historical_weather`: re-parse the formatted
dates (failure → invalid format), then the 5-day-embargo check, then the
minimum-year check.  A successful range is passed through unchanged. -/
def validateDateRange (s e today : Date) : Except WErr (Date × Date) :=
  if !(dateValid s && dateValid e) then .error .invalidFormat
  else if dateLt (subDays today 5) e then .error .tooRecent
  else if s.year < 1940 then .error .tooOld
  else .ok (s, e)

/-- Date-range resolution of `get_historical_weather(city, start_date,
end_date, variables, time_period)`: the `if time_period and not start_date and
not end_date` / `elif not start_date or not end_date` dispatch followed by
validation. -/
def get_historical_weather_dates (time_period : Option (List Char))
    (start_date end_date : Option Date) (today : Date) : Except WErr (Date × Date) :=
  match time_period, start_date, end_date with
  | some tp, none, none =>
    if tp.isEmpty then .error .missingDates
    else
      match parseTimePeriod tp today with
      | .ok (s, e) => validateDateRange s e today
      | .error w => .error w
  | _, some s, some e => validateDateRange s e today
  | _, _, _ => .error .missingDates

/-! ### Dynamic boundaries (`get_dynamic_boundaries`)

The geocoding collaborator is abstracted: `LocationMatch` is the first result
returned by `get_enhanced_location_info(location, count=1)`, with the fields
the boundary computation reads. -/

structure LocationMatch where
  name : String
  country : String
  latitude : ℚ
  longitude : ℚ
  feature_code : String
deriving DecidableEq

structure Boundaries where
  min_lat : ℚ
  max_lat : ℚ
  min_lon : ℚ
  max_lon : ℚ
  center_lat : ℚ
  center_lon : ℚ
  location_name : String
  country : String
  feature_code : String
deriving DecidableEq

/-- `get_dynamic_boundaries(location, padding_degrees=1.0)` given the first
geocoding result: a box of half-width `padding_degrees` around the centre,
then overwritten by the feature-code-specific half-width (5° for the
country codes PCLI/PCL, 2° for ADM1, 0.5° for the populated-place codes
PPL/PPLA/PPLC). -/
def get_dynamic_boundaries (loc : LocationMatch) (padding_degrees : ℚ := 1.0) : Boundaries :=
  let lat := loc.latitude
  let lon := loc.longitude
  let base : Boundaries :=
    ⟨lat - padding_degrees, lat + padding_degrees, lon - padding_degrees, lon + padding_degrees,
     lat, lon, loc.name, loc.country, loc.feature_code⟩
  if loc.feature_code == "PCLI" || loc.feature_code == "PCL" then
    { base with min_lat := lat - 5.0, max_lat := lat + 5.0, min_lon := lon - 5.0, max_lon := lon + 5.0 }
  else if loc.feature_code == "ADM1" then
    { base with min_lat := lat - 2.0, max_lat := lat + 2.0, min_lon := lon - 2.0, max_lon := lon + 2.0 }
  else if loc.feature_code == "PPL" || loc.feature_code == "PPLA" || loc.feature_code == "PPLC" then
    { base with min_lat := lat - 0.5, max_lat := lat + 0.5, min_lon := lon - 0.5, max_lon := lon + 0.5 }
  else base

/-- The half-width the specification describes for each feature code (country
±5°, first-level administrative division ±2°, populated place ±0.5°, anything
else the caller-supplied padding). -/
def specPadding (fc : String) (padding_degrees : ℚ) : ℚ :=
  if fc = "PCLI" ∨ fc = "PCL" then 5.0
  else if fc = "ADM1" then 2.0
  else if fc = "PPL" ∨ fc = "PPLA" ∨ fc = "PPLC" then 0.5
  else padding_degrees

/-! ### Static region table (`_get_region_boundaries`) -/

structure RegionBox where
  min_lat : ℚ
  max_lat : ℚ
  min_lon : ℚ
  max_lon : ℚ
deriving DecidableEq

set_option maxHeartbeats 1000000 in
/-- The `region_boundaries` dictionary, in source order. -/
def region_boundaries : List (List Char × RegionBox) :=
  [(strL "pacific ring of fire", ⟨-60.0, 70.0, -180.0, 180.0⟩),
   (strL "ring of fire", ⟨-60.0, 70.0, -180.0, 180.0⟩),
   (strL "mediterranean", ⟨30.0, 48.0, -10.0, 42.0⟩),
   (strL "himalayan region", ⟨25.0, 40.0, 70.0, 105.0⟩),
   (strL "himalaya", ⟨25.0, 40.0, 70.0, 105.0⟩),
   (strL "middle east", ⟨12.0, 42.0, 25.0, 65.0⟩),
   (strL "caribbean", ⟨10.0, 28.0, -90.0, -58.0⟩),
   (strL "pacific", ⟨-60.0, 70.0, 120.0, -70.0⟩),
   (strL "atlantic", ⟨-60.0, 70.0, -80.0, 20.0⟩),
   (strL "san andreas fault", ⟨32.0, 40.0, -125.0, -115.0⟩),
   (strL "anatolian fault", ⟨38.0, 42.0, 26.0, 42.0⟩),
   (strL "north anatolian fault", ⟨39.0, 42.0, 26.0, 42.0⟩),
   (strL "alpine fault", ⟨-47.0, -40.0, 166.0, 172.0⟩),
   (strL "dead sea fault", ⟨29.0, 37.0, 34.0, 37.0⟩),
   (strL "mid-atlantic ridge", ⟨-60.0, 70.0, -45.0, -5.0⟩),
   (strL "east pacific rise", ⟨-55.0, 60.0, -130.0, -100.0⟩),
   (strL "indian ocean ridge", ⟨-55.0, 25.0, 20.0, 90.0⟩),
   (strL "cascadia subduction zone", ⟨40.0, 50.0, -130.0, -120.0⟩),
   (strL "japan trench", ⟨30.0, 45.0, 140.0, 148.0⟩),
   (strL "peru-chile trench", ⟨-45.0, -5.0, -85.0, -65.0⟩),
   (strL "mariana trench", ⟨10.0, 25.0, 140.0, 148.0⟩),
   (strL "aleutian trench", ⟨50.0, 60.0, -180.0, -140.0⟩),
   (strL "yellowstone", ⟨44.0, 45.5, -111.5, -110.0⟩),
   (strL "kamchatka", ⟨50.0, 62.0, 155.0, 166.0⟩),
   (strL "iceland", ⟨63.0, 67.0, -25.0, -13.0⟩),
   (strL "andes", ⟨-55.0, 12.0, -82.0, -65.0⟩),
   (strL "california", ⟨32.0, 42.0, -125.0, -114.0⟩),
   (strL "alaska", ⟨55.0, 72.0, -180.0, -130.0⟩),
   (strL "indonesia", ⟨-11.0, 6.0, 95.0, 141.0⟩),
   (strL "philippines", ⟨4.0, 21.0, 116.0, 127.0⟩),
   (strL "new zealand", ⟨-47.0, -34.0, 166.0, 179.0⟩),
   (strL "chile", ⟨-56.0, -17.0, -76.0, -66.0⟩),
   (strL "mexico", ⟨14.0, 33.0, -118.0, -86.0⟩),
   (strL "turkey", ⟨35.0, 43.0, 25.0, 45.0⟩),
   (strL "iran", ⟨25.0, 40.0, 44.0, 64.0⟩),
   (strL "italy", ⟨35.0, 47.0, 6.0, 19.0⟩),
   (strL "greece", ⟨34.0, 42.0, 19.0, 30.0⟩),
   (strL "japan", ⟨24.0, 46.0, 129.0, 146.0⟩),
   (strL "taiwan", ⟨21.0, 26.0, 119.0, 122.0⟩),
   (strL "papua new guinea", ⟨-12.0, -1.0, 140.0, 156.0⟩),
   (strL "vanuatu", ⟨-21.0, -13.0, 166.0, 171.0⟩),
   (strL "solomon islands", ⟨-12.0, -5.0, 155.0, 163.0⟩),
   (strL "fiji", ⟨-22.0, -12.0, 177.0, -177.0⟩),
   (strL "tonga", ⟨-25.0, -15.0, -177.0, -173.0⟩),
   (strL "peru", ⟨-18.5, -0.5, -82.0, -68.0⟩),
   (strL "ecuador", ⟨-5.0, 2.0, -82.0, -75.0⟩),
   (strL "colombia", ⟨-5.0, 13.0, -82.0, -66.0⟩),
   (strL "afghanistan", ⟨29.0, 39.0, 60.0, 75.0⟩),
   (strL "pakistan", ⟨23.0, 37.0, 60.0, 78.0⟩),
   (strL "india", ⟨6.0, 37.0, 68.0, 97.0⟩),
   (strL "nepal", ⟨26.0, 31.0, 80.0, 89.0⟩),
   (strL "bhutan", ⟨26.5, 28.5, 88.5, 92.5⟩),
   (strL "myanmar", ⟨9.0, 29.0, 92.0, 102.0⟩),
   (strL "china", ⟨18.0, 54.0, 73.0, 135.0⟩),
   (strL "mongolia", ⟨41.0, 52.0, 87.0, 120.0⟩),
   (strL "kyrgyzstan", ⟨39.0, 44.0, 69.0, 81.0⟩),
   (strL "tajikistan", ⟨36.0, 41.0, 67.0, 75.0⟩),
   (strL "uzbekistan", ⟨37.0, 46.0, 55.0, 74.0⟩),
   (strL "kazakhstan", ⟨40.0, 56.0, 46.0, 88.0⟩),
   (strL "russia", ⟨41.0, 82.0, 19.0, -169.0⟩),
   (strL "haiti", ⟨17.5, 20.5, -75.0, -71.0⟩),
   (strL "guatemala", ⟨13.0, 18.0, -93.0, -88.0⟩),
   (strL "costa rica", ⟨8.0, 11.5, -86.0, -82.5⟩),
   (strL "el salvador", ⟨12.5, 14.5, -90.5, -87.5⟩),
   (strL "nicaragua", ⟨10.5, 15.5, -88.0, -83.0⟩)]

/-- `_get_region_boundaries(region)`: dictionary lookup on the lowercased name. -/
def _get_region_boundaries (region : List Char) : Option RegionBox :=
  let key := region.map lowerChar
  (List.find? (fun e => e.1 == key) region_boundaries).map (·.2)

/-! ### Smart-search entry points

`smart_earthquake_search` and `smart_location_earthquake_query` differ only in
the plumbing modelled here: which parameters are merged how, and which kind of
USGS request (`maxradiuskm` circular, `min/max lat/lon` rectangular, or global)
the downstream call builds.  The network call itself and its JSON handling are
external.  `Except.error ()` is the `IndexError` escaping the day-count
extractor, caught by each function's outer `except`. -/

/-- The geometry of the downstream USGS request. -/
inductive UsgsPlan where
  /-- `latitude`/`longitude`/`maxradiuskm` parameters (circular search). -/
  | circular (loc : List Char) (radius_km : Nat)
  /-- `minlatitude`/... parameters from `get_dynamic_boundaries` (rectangular search). -/
  | rectangular (loc : List Char)
  /-- no location constraint at all. -/
  | globalSearch
deriving DecidableEq

/-- Caller-supplied overrides of `smart_earthquake_search`. -/
structure Overrides where
  location : Option (List Char)
  days : Option Nat
  magnitude_threshold : Option ℚ
  radius_km : Option Nat
deriving DecidableEq

/-- All-`None` overrides. -/
def emptyOverrides : Overrides := ⟨none, none, none, none⟩

/-- Python truthiness of an optional string. -/
def truthyStr : Option (List Char) → Bool
  | some (_ :: _) => true
  | _ => false

/-- Python truthiness of an optional int. -/
def truthyNat : Option Nat → Bool
  | some n => decide (n ≠ 0)
  | none => false

/-- Python truthiness of an optional float. -/
def truthyRat : Option ℚ → Bool
  | some q => decide (q ≠ 0)
  | none => false

/-- Python `x or d` for an optional int. -/
def pyOrNat (x : Option Nat) (d : Nat) : Nat :=
  match x with
  | some n => if n = 0 then d else n
  | none => d

/-- Python `x or d` for an optional float. -/
def pyOrRat (x : Option ℚ) (d : ℚ) : ℚ :=
  match x with
  | some q => if q = 0 then d else q
  | none => d

/-- The merged parameters of `smart_earthquake_search` (echoed as its
`query_context`) together with the plan of the downstream request. -/
structure SmartParams where
  location : Option (List Char)
  days : Nat
  magnitude : ℚ
  radius_km : Nat
  plan : UsgsPlan
deriving DecidableEq

/-- `smart_earthquake_search(query, location, days, magnitude_threshold,
radius_km)`: each falsy parameter is filled from its extractor, the numeric
parameters are defaulted with `or` (30 / 2.5 / 500), and the request is built
by `get_earthquake_data`, which for a truthy city and truthy radius issues a
circular search and otherwise ignores the location entirely. -/
def smart_earthquake_search (query : String) (o : Overrides) : Except Unit SmartParams := do
  let location := if truthyStr o.location then o.location else _extract_location_from_query query
  let days ← if truthyNat o.days then pure o.days else _extract_time_period_from_query query
  let magnitude := if truthyRat o.magnitude_threshold then o.magnitude_threshold
                   else _extract_magnitude_from_query query
  let radius := if truthyNat o.radius_km then o.radius_km else _extract_radius_from_query query
  let days := pyOrNat days 30
  let magnitude := pyOrRat magnitude 2.5
  let radius := pyOrNat radius 500
  let plan :=
    match location with
    | some (c :: l) => if radius ≠ 0 then UsgsPlan.circular (c :: l) radius else .globalSearch
    | _ => .globalSearch
  pure ⟨location, days, magnitude, radius, plan⟩

/-- The extracted parameters of `smart_location_earthquake_query` (echoed as
its `query_analysis`) together with the plan of the downstream request. -/
structure SmartLocParams where
  location : Option (List Char)
  days : Nat
  magnitude : ℚ
  radius_km : Option Nat
  plan : UsgsPlan
deriving DecidableEq

/-- `smart_location_earthquake_query(query)` with `auto_detect_params=True`:
all four parameters come from the extractors, days and magnitude are defaulted
with `or`, the radius is left as extracted, and the request is built by
`get_earthquakes_by_any_location`, which issues a circular search for a truthy
radius and otherwise a rectangular search over the dynamic boundaries. -/
def smart_location_earthquake_query (query : String) : Except Unit SmartLocParams := do
  let location := _extract_location_from_query query
  let days ← _extract_time_period_from_query query
  let magnitude := _extract_magnitude_from_query query
  let radius := _extract_radius_from_query query
  let days := pyOrNat days 30
  let magnitude := pyOrRat magnitude 2.5
  let plan :=
    match location with
    | some (c :: l) =>
      if truthyNat radius then UsgsPlan.circular (c :: l) (radius.getD 0) else .rectangular (c :: l)
    | _ => .globalSearch
  pure ⟨location, days, magnitude, radius, plan⟩

/-! ### Specification-side rule tables

The following definitions transcribe the *claims'* wording of the extractor
rule tables, to be compared against the code-side runners above. -/

/-- First-of-two-options choice (used to state "numeric patterns are tried
before qualitative words"). -/
def optOr {α : Type} : Option α → Option α → Option α
  | some a, _ => some a
  | none, b => b

/-- The six explicit numeric threshold patterns of the magnitude extractor. -/
def magNumericTable : List (List Tok × MagRule) :=
  [(patMagPlus, .fromNum), (patMagAbove, .fromNum), (patMagShort, .fromNum),
   (patPlusMag, .fromNum), (patAboveMag, .fromNum), (patStrongerThan, .fromNum)]

/-- The three qualitative words of the magnitude extractor, in rule order. -/
def magQualTable : List (List Tok × MagRule) :=
  [(patSignificant, .fixedMag 4.5), (patMajor, .fixedMag 6.0), (patMinor, .fixedMag 2.0)]

/-- What a day-count rule does, in the vocabulary of the specification:
return the captured number, seven times the captured number, a fixed count —
or fail, for the rule whose handler reads a capture group its pattern lacks. -/
inductive DayRule where
  | countDays
  | countWeeks
  | fixedDays (n : Nat)
  | brokenRule
deriving DecidableEq

/-- Evaluate an ordered day-count rule table, first matching rule wins. -/
def runDayRules : List (List Tok × DayRule) → List Char → Except Unit (Option Nat)
  | [], _ => .ok none
  | (p, r) :: rest, cs =>
    match search p cs with
    | some caps =>
      match r with
      | .countDays => .ok (some (parseNatChars (caps.headD [])))
      | .countWeeks => .ok (some (7 * parseNatChars (caps.headD [])))
      | .fixedDays n => .ok (some n)
      | .brokenRule => .error ()
    | none => runDayRules rest cs

/-- The day-count rule table exactly as the claim states it: no bare
`"N weeks"` rule, and `"today"` yields 1. -/
def claimedDayTable : List (List Tok × DayRule) :=
  [(patLastNDays, .countDays), (patPastNDays, .countDays), (patNDays, .countDays),
   (patLastWeek, .fixedDays 7), (patPastWeek, .fixedDays 7), (patThisWeek, .fixedDays 7),
   (patLastMonth, .fixedDays 30), (patPastMonth, .fixedDays 30), (patThisMonth, .fixedDays 30),
   (patLastNWeeks, .countWeeks), (patPastNWeeks, .countWeeks),
   (patToday, .fixedDays 1), (patYesterday, .fixedDays 2), (patRecent, .fixedDays 14)]

/-- The day-count rule table as the code actually behaves: a bare `"N weeks"`
rule giving `7·N` sits between `"past N weeks"` and `"today"`, and the
`"today"` rule is broken (its handler raises instead of giving 1). -/
def amendedDayTable : List (List Tok × DayRule) :=
  [(patLastNDays, .countDays), (patPastNDays, .countDays), (patNDays, .countDays),
   (patLastWeek, .fixedDays 7), (patPastWeek, .fixedDays 7), (patThisWeek, .fixedDays 7),
   (patLastMonth, .fixedDays 30), (patPastMonth, .fixedDays 30), (patThisMonth, .fixedDays 30),
   (patLastNWeeks, .countWeeks), (patPastNWeeks, .countWeeks), (patNWeeks, .countWeeks),
   (patToday, .brokenRule), (patYesterday, .fixedDays 2), (patRecent, .fixedDays 14)]

/-- The day-count rule determined by the source's multiplier encoding for a
pattern: multiplier 1 reads group 1 (broken when the pattern has no group),
multiplier 7 distinguishes the fixed-week rules from the counted-week rules by
the presence of a group, anything else is a fixed count. -/
def ruleOfMult (p : List Tok) (mult : Nat) : DayRule :=
  if mult = 1 then (if capCount p = 0 then .brokenRule else .countDays)
  else if mult = 7 then (if capCount p = 0 then .fixedDays 7 else .countWeeks)
  else .fixedDays mult

/-- The "past N years" time expression handed to the resolver, for a concrete N. -/
def pastYearsExpr (n : Nat) : List Char := strL "past " ++ natDigits n ++ strL " years"

/-! ## Lemmas -/

/-- Splitting a rule table splits its first-match evaluation. -/
lemma runMagTable_append (A B : List (List Tok × MagRule)) (cs : List Char) :
    runMagTable (A ++ B) cs = optOr (runMagTable A cs) (runMagTable B cs) := by
  induction A with
  | nil => simp [runMagTable, optOr]
  | cons e rest ih =>
    obtain ⟨p, r⟩ := e
    simp only [List.cons_append, runMagTable]
    cases search p cs with
    | none => exact ih
    | some caps => cases r <;> simp [optOr]

/-- The Python multiplier dispatch of the day-count loop agrees rule by rule
with the specification-side rule vocabulary. -/
lemma runTimeTable_eq_runDayRules (t : List (List Tok × Nat)) (cs : List Char) :
    runTimeTable t cs = runDayRules (t.map fun e => (e.1, ruleOfMult e.1 e.2)) cs := by
  induction t with
  | nil => rfl
  | cons e rest ih =>
    obtain ⟨p, mult⟩ := e
    simp only [runTimeTable, List.map_cons, runDayRules, ruleOfMult]
    cases search p cs with
    | none => exact ih
    | some caps =>
      by_cases h1 : mult = 1
      · by_cases h0 : capCount p = 0 <;> simp [h1, h0]
      · by_cases h7 : mult = 7
        · by_cases h0 : capCount p = 0 <;> simp [h1, h7, h0]
        · simp [h1, h7]

/-- The location extractor never returns an empty location. -/
lemma runLocationTable_ne_nil {ps : List (List Tok)} {cs l : List Char}
    (h : runLocationTable ps cs = some l) : l ≠ [] := by
  induction ps with
  | nil => simp [runLocationTable] at h
  | cons p rest ih =>
    rw [runLocationTable] at h
    cases hs : search p cs with
    | none => rw [hs] at h; exact ih h
    | some caps =>
      rw [hs] at h
      dsimp only at h
      by_cases he : (cleanLocation (caps.headD [])).isEmpty = true
      · rw [if_pos he] at h
        exact Option.noConfusion h
      · rw [if_neg he] at h
        injection h with h
        subst h
        intro hnil
        exact he (by rw [hnil]; rfl)

/-! ### Calendar lemmas -/

lemma daysInMonth_pos (y : Int) (m : Nat) : 1 ≤ daysInMonth y m := by
  unfold daysInMonth
  split_ifs <;> omega

lemma daysInMonth_twelve (y : Int) : daysInMonth y 12 = 31 := rfl

lemma dateValidMD_prevDay {d : Date} (h : dateValidMD d = true) :
    dateValidMD (prevDay d) = true := by
  simp only [dateValidMD, Bool.and_eq_true, decide_eq_true_eq] at h
  obtain ⟨⟨⟨hm1, hm2⟩, hd1⟩, hd2⟩ := h
  unfold prevDay
  split_ifs with h1 h2 <;>
    simp only [dateValidMD, Bool.and_eq_true, decide_eq_true_eq]
  · exact ⟨⟨⟨hm1, hm2⟩, by omega⟩, by omega⟩
  · exact ⟨⟨⟨by omega, by omega⟩, daysInMonth_pos _ _⟩, le_refl _⟩
  · exact ⟨⟨⟨by omega, by omega⟩, by omega⟩, by rw [daysInMonth_twelve]⟩

lemma prevDay_year_le (d : Date) : (prevDay d).year ≤ d.year := by
  unfold prevDay
  split_ifs <;> simp

lemma prevDay_year_ge (d : Date) : d.year - 1 ≤ (prevDay d).year := by
  unfold prevDay
  split_ifs <;> simp

lemma dateValidMD_subDays {d : Date} (h : dateValidMD d = true) (n : Nat) :
    dateValidMD (subDays d n) = true := by
  induction n generalizing d with
  | zero => exact h
  | succ k ih => exact ih (dateValidMD_prevDay h)

lemma subDays_year_le (d : Date) (n : Nat) : (subDays d n).year ≤ d.year := by
  induction n generalizing d with
  | zero => exact le_refl _
  | succ k ih => exact le_trans (ih (prevDay d)) (prevDay_year_le d)

lemma subDays_year_ge (d : Date) (n : Nat) : d.year - n ≤ (subDays d n).year := by
  induction n generalizing d with
  | zero => simp [subDays]
  | succ k ih =>
    have h1 := prevDay_year_ge d
    have h2 := ih (prevDay d)
    simp only [subDays]
    omega

lemma dateValid_subDays {d : Date} (h : dateValid d = true) {n : Nat}
    (hy : (n : Int) + 1 ≤ d.year) : dateValid (subDays d n) = true := by
  simp only [dateValid, Bool.and_eq_true, decide_eq_true_eq] at h ⊢
  refine ⟨⟨dateValidMD_subDays h.1.1 n, ?_⟩, ?_⟩
  · have := subDays_year_ge d n
    omega
  · have := subDays_year_le d n
    omega

lemma dateLt_irrefl (d : Date) : dateLt d d = false := by
  unfold dateLt
  simp

/-! ### Decimal-digit lemmas -/

lemma charVal_digitChar {d : Nat} (h : d < 10) : charVal (digitChar d) = d := by
  interval_cases d <;> decide

lemma isDigitChar_digitChar {d : Nat} (h : d < 10) : isDigitChar (digitChar d) = true := by
  interval_cases d <;> decide

lemma parseNat_snoc (cs : List Char) (c : Char) :
    parseNatChars (cs ++ [c]) = 10 * parseNatChars cs + charVal c := by
  simp [parseNatChars, List.foldl_append]

lemma parseNat_natDigitsAux : ∀ fuel n, n ≤ fuel → parseNatChars (natDigitsAux fuel n) = n := by
  intro fuel
  induction fuel with
  | zero =>
    intro n hn
    interval_cases n
    rfl
  | succ f ih =>
    intro n hn
    match n with
    | 0 => rfl
    | m + 1 =>
      rw [show natDigitsAux (f + 1) (m + 1)
            = natDigitsAux f ((m + 1) / 10) ++ [digitChar ((m + 1) % 10)] from rfl,
          parseNat_snoc, ih _ (by omega), charVal_digitChar (Nat.mod_lt _ (by omega))]
      omega

lemma parseNat_natDigits (n : Nat) : parseNatChars (natDigits n) = n := by
  unfold natDigits
  split_ifs with h
  · subst h; rfl
  · exact parseNat_natDigitsAux n n (le_refl n)

lemma natDigitsAux_all_digit : ∀ fuel n c, c ∈ natDigitsAux fuel n → isDigitChar c = true := by
  intro fuel
  induction fuel with
  | zero => intro n c hc; simp [natDigitsAux] at hc
  | succ f ih =>
    intro n c hc
    match n with
    | 0 => simp [natDigitsAux] at hc
    | m + 1 =>
      rw [show natDigitsAux (f + 1) (m + 1)
            = natDigitsAux f ((m + 1) / 10) ++ [digitChar ((m + 1) % 10)] from rfl] at hc
      rcases List.mem_append.mp hc with h | h
      · exact ih _ _ h
      · rcases List.mem_singleton.mp h with rfl
        exact isDigitChar_digitChar (Nat.mod_lt _ (by omega))

lemma natDigits_all_digit (n : Nat) : ∀ c ∈ natDigits n, isDigitChar c = true := by
  intro c hc
  unfold natDigits at hc
  split_ifs at hc with h
  · rcases List.mem_singleton.mp hc with rfl
    decide
  · exact natDigitsAux_all_digit n n c hc

lemma natDigits_ne_nil (n : Nat) : natDigits n ≠ [] := by
  unfold natDigits
  split_ifs with h
  · simp
  · match n, h with
    | m + 1, _ =>
      rw [show natDigitsAux (m + 1) (m + 1)
            = natDigitsAux m ((m + 1) / 10) ++ [digitChar ((m + 1) % 10)] from rfl]
      simp

lemma natDigitsAux_len : ∀ k fuel n, n ≤ fuel → 10 ^ k ≤ n → n < 10 ^ (k + 1) →
    (natDigitsAux fuel n).length = k + 1 := by
  intro k
  induction k with
  | zero =>
    intro fuel n hn h1 h2
    simp only [pow_zero, pow_one] at h1 h2
    obtain ⟨m, rfl⟩ : ∃ m, n = m + 1 := ⟨n - 1, by omega⟩
    obtain ⟨f, rfl⟩ : ∃ f, fuel = f + 1 := ⟨fuel - 1, by omega⟩
    rw [show natDigitsAux (f + 1) (m + 1)
          = natDigitsAux f ((m + 1) / 10) ++ [digitChar ((m + 1) % 10)] from rfl]
    have hz : (m + 1) / 10 = 0 := by omega
    rw [hz]
    match f with
    | 0 => rfl
    | _ + 1 => rfl
  | succ k ih =>
    intro fuel n hn h1 h2
    have h10 : (10 : Nat) ^ (k + 1) ≥ 10 := by
      calc (10 : Nat) ^ (k + 1) ≥ 10 ^ 1 := Nat.pow_le_pow_right (by omega) (by omega)
      _ = 10 := pow_one 10
    obtain ⟨m, rfl⟩ : ∃ m, n = m + 1 := ⟨n - 1, by omega⟩
    obtain ⟨f, rfl⟩ : ∃ f, fuel = f + 1 := ⟨fuel - 1, by omega⟩
    rw [show natDigitsAux (f + 1) (m + 1)
          = natDigitsAux f ((m + 1) / 10) ++ [digitChar ((m + 1) % 10)] from rfl]
    have hd1 : 10 ^ k ≤ (m + 1) / 10 := by
      rw [Nat.le_div_iff_mul_le (by omega)]
      calc 10 ^ k * 10 = 10 ^ (k + 1) := by ring
      _ ≤ m + 1 := h1
    have hd2 : (m + 1) / 10 < 10 ^ (k + 1) := by
      rw [Nat.div_lt_iff_lt_mul (by omega)]
      calc m + 1 < 10 ^ (k + 1 + 1) := h2
      _ = 10 ^ (k + 1) * 10 := by ring
    have hdf : (m + 1) / 10 ≤ f := by
      have : (m + 1) / 10 < m + 1 := Nat.div_lt_self (by omega) (by omega)
      omega
    rw [List.length_append, ih f _ hdf hd1 hd2]
    rfl

lemma natDigits_len_four {y : Nat} (h1 : 1000 ≤ y) (h2 : y ≤ 9999) :
    (natDigits y).length = 4 := by
  unfold natDigits
  rw [if_neg (by omega)]
  exact natDigitsAux_len 3 y y (le_refl y) (by norm_num; omega) (by norm_num; omega)

/-! ### Substring and scanning lemmas -/

lemma startsWithL_self_append (s t : List Char) : startsWithL s (s ++ t) = true := by
  induction s with
  | nil => rfl
  | cons c cs ih => simp [startsWithL, ih]

lemma containsSub_of_starts {n h : List Char} (hs : startsWithL n h = true) :
    containsSub n h = true := by
  cases h with
  | nil => exact hs
  | cons c rest => simp [containsSub, hs]

lemma containsSub_cons {n h : List Char} (c : Char) (hc : containsSub n h = true) :
    containsSub n (c :: h) = true := by
  simp [containsSub, hc]

lemma containsSub_append_left (p : List Char) {n h : List Char}
    (hc : containsSub n h = true) : containsSub n (p ++ h) = true := by
  induction p with
  | nil => exact hc
  | cons c cs ih => exact containsSub_cons c ih

lemma startsWithL_false_of_head {c0 c : Char} {nt rest : List Char} (hne : c0 ≠ c) :
    startsWithL (c0 :: nt) (c :: rest) = false := by
  simp [startsWithL, hne]

lemma containsSub_all_digits {c0 : Char} {nt hay : List Char}
    (hc0 : isDigitChar c0 = false) (hall : ∀ c ∈ hay, isDigitChar c = true) :
    containsSub (c0 :: nt) hay = false := by
  induction hay with
  | nil => rfl
  | cons c rest ih =>
    have hne : c0 ≠ c := by
      intro hEq
      rw [hEq] at hc0
      rw [hall c (List.mem_cons_self c rest)] at hc0
      exact Bool.noConfusion hc0
    simp only [containsSub, startsWithL_false_of_head hne, Bool.false_or]
    exact ih fun c' hc' => hall c' (List.mem_cons_of_mem c hc')

lemma takeWhile_append_all {P : Char → Bool} {ds rest : List Char}
    (h : ∀ c ∈ ds, P c = true) (hr : ∀ c, rest.head? = some c → P c = false) :
    (ds ++ rest).takeWhile P = ds := by
  induction ds with
  | nil =>
    cases rest with
    | nil => rfl
    | cons c t => simp [List.takeWhile_cons, hr c rfl]
  | cons d ds' ih =>
    simp only [List.cons_append, List.takeWhile_cons, h d (List.mem_cons_self d ds'),
               if_true]
    rw [ih fun c hc => h c (List.mem_cons_of_mem d hc)]

lemma firstNum_append_nondigit (p : List Char) {rest : List Char}
    (h : ∀ c ∈ p, isDigitChar c = false) : firstNum (p ++ rest) = firstNum rest := by
  induction p with
  | nil => rfl
  | cons c cs ih =>
    simp only [List.cons_append, firstNum, h c (List.mem_cons_self c cs),
               Bool.false_eq_true, if_false]
    exact ih fun c' hc' => h c' (List.mem_cons_of_mem c hc')

lemma firstNum_digits {ds rest : List Char} (hne : ds ≠ [])
    (hall : ∀ c ∈ ds, isDigitChar c = true)
    (hr : ∀ c, rest.head? = some c → isDigitChar c = false) :
    firstNum (ds ++ rest) = some ds := by
  cases ds with
  | nil => exact absurd rfl hne
  | cons d ds' =>
    simp only [List.cons_append, firstNum, hall d (List.mem_cons_self d ds'), if_true]
    rw [show ds'.append rest = ds' ++ rest from rfl,
        takeWhile_append_all (fun c hc => hall c (List.mem_cons_of_mem d hc)) hr]

/-! ### Lowercasing and stripping lemmas -/

lemma lowerChar_digit {c : Char} (h : isDigitChar c = true) : lowerChar c = c := by
  simp only [isDigitChar, Bool.and_eq_true, decide_eq_true_eq] at h
  unfold lowerChar
  rw [if_neg]
  simp only [Bool.and_eq_true, decide_eq_true_eq, not_and]
  omega

lemma map_lower_digits {ds : List Char} (h : ∀ c ∈ ds, isDigitChar c = true) :
    ds.map lowerChar = ds := by
  induction ds with
  | nil => rfl
  | cons c cs ih =>
    rw [List.map_cons, lowerChar_digit (h c (List.mem_cons_self c cs)),
        ih fun c' hc' => h c' (List.mem_cons_of_mem c hc')]

lemma isSpaceChar_digit {c : Char} (h : isDigitChar c = true) : isSpaceChar c = false := by
  simp only [isDigitChar, Bool.and_eq_true, decide_eq_true_eq] at h
  simp only [isSpaceChar, Bool.or_eq_false_iff, beq_eq_false_iff_ne, ne_eq]
  exact ⟨⟨⟨⟨⟨fun hEq => absurd h (by subst hEq; decide),
             fun hEq => absurd h (by subst hEq; decide)⟩,
             fun hEq => absurd h (by subst hEq; decide)⟩,
             fun hEq => absurd h (by subst hEq; decide)⟩,
             fun hEq => by omega⟩,
             fun hEq => by omega⟩

lemma dropLeading_nonspace {cs : List Char} (h : ∀ c ∈ cs, isSpaceChar c = false) :
    dropLeading cs = cs := by
  cases cs with
  | nil => rfl
  | cons c rest => simp [dropLeading, List.dropWhile_cons, h c (List.mem_cons_self c rest)]

lemma dropTrailing_nonspace {cs : List Char} (h : ∀ c ∈ cs, isSpaceChar c = false) :
    dropTrailing cs = cs := by
  induction cs with
  | nil => rfl
  | cons c rest ih =>
    rw [dropTrailing, ih fun c' hc' => h c' (List.mem_cons_of_mem c hc')]
    cases rest with
    | nil => simp [h c (List.mem_cons_self c [])]
    | cons d t => rfl

lemma stripChars_nonspace {cs : List Char} (h : ∀ c ∈ cs, isSpaceChar c = false) :
    stripChars cs = cs := by
  unfold stripChars
  rw [dropLeading_nonspace h, dropTrailing_nonspace h]

lemma dropTrailing_snoc {xs : List Char} {c : Char} (h : isSpaceChar c = false) :
    dropTrailing (xs ++ [c]) = xs ++ [c] := by
  induction xs with
  | nil => simp [dropTrailing, h]
  | cons x xs' ih =>
    rw [List.cons_append, dropTrailing, ih]
    cases hx : xs' ++ [c] with
    | nil => exact absurd hx (by simp)
    | cons a as => rfl

lemma containsSub_digits_of_head {needle hay : List Char} (hne : needle ≠ [])
    (hh : ∀ c, needle.head? = some c → isDigitChar c = false)
    (hall : ∀ c ∈ hay, isDigitChar c = true) : containsSub needle hay = false := by
  cases needle with
  | nil => exact absurd rfl hne
  | cons c0 nt => exact containsSub_all_digits (hh c0 rfl) hall

/-! ### The "past N years" expression -/

lemma map_lower_pastYears (n : Nat) : (pastYearsExpr n).map lowerChar = pastYearsExpr n := by
  unfold pastYearsExpr
  rw [List.map_append, List.map_append, map_lower_digits (natDigits_all_digit n),
      show (strL "past ").map lowerChar = strL "past " from rfl,
      show (strL " years").map lowerChar = strL " years" from rfl]

lemma stripChars_pastYears (n : Nat) : stripChars (pastYearsExpr n) = pastYearsExpr n := by
  have hsnoc : pastYearsExpr n
      = ((strL "past " ++ natDigits n) ++ strL " year") ++ ['s'] := by
    unfold pastYearsExpr
    rw [show strL " years" = strL " year" ++ ['s'] from rfl]
    simp [List.append_assoc]
  have hlead : dropLeading (pastYearsExpr n) = pastYearsExpr n := rfl
  unfold stripChars
  rw [hlead, hsnoc, dropTrailing_snoc (by decide)]

lemma contains_past_pastYears (n : Nat) :
    containsSub (strL "past") (pastYearsExpr n) = true :=
  containsSub_of_starts rfl

lemma contains_year_pastYears (n : Nat) :
    containsSub (strL "year") (pastYearsExpr n) = true := by
  unfold pastYearsExpr
  exact containsSub_append_left _ (by decide)

lemma firstNum_pastYears (n : Nat) : firstNum (pastYearsExpr n) = some (natDigits n) := by
  unfold pastYearsExpr
  rw [List.append_assoc, firstNum_append_nondigit (strL "past ") (by decide)]
  refine firstNum_digits (natDigits_ne_nil n) (natDigits_all_digit n) fun c hc => ?_
  rw [show (strL " years").head? = some ' ' from rfl] at hc
  injection hc with hc
  subst hc
  decide

/-! ## Claim theorems -/

/-- C2 (code bug witness): on the documented query "magnitude 5+ earthquakes
near Tokyo in the past week" with empty overrides, the location extractor's
first pattern captures the filler word "the" (from "in the past"), cleaning
empties it and the extractor returns `None` without trying the remaining
patterns — so `smart_earthquake_search` runs a *global* search with
location `None`, days 7, magnitude 5.0 and radius 500, instead of the
documented location "Tokyo". -/
theorem flagship_query_eval :
    smart_earthquake_search "magnitude 5+ earthquakes near Tokyo in the past week"
        emptyOverrides = .ok ⟨none, 7, 5, 500, .globalSearch⟩ ∧
    _extract_location_from_query "magnitude 5+ earthquakes near Tokyo in the past week" =
      none := by
  decide

/-- C5 (amended): the day-count extractor evaluates, first matching rule
first, the ordered table 'last/past N days' → N, bare 'N days' → N,
'last/past/this week' → 7, 'last/past/this month' → 30, 'last/past N weeks'
→ 7·N, bare 'N weeks' → 7·N, then 'today' — whose handler reads a capture
group the pattern lacks and raises instead of giving a count — 'yesterday'
→ 2, 'recent' → 14, and yields None when no rule matches; in particular
"last 2 weeks" gives 14, "recent" gives 14, and "no time mentioned" gives
None. -/
theorem day_extractor_rule_table :
    (∀ q : String,
      _extract_time_period_from_query q = runDayRules amendedDayTable (lowerList q)) ∧
    _extract_time_period_from_query "last 2 weeks" = .ok (some 14) ∧
    _extract_time_period_from_query "recent" = .ok (some 14) ∧
    _extract_time_period_from_query "no time mentioned" = .ok none := by
  refine ⟨fun q => ?_, by decide, by decide, by decide⟩
  show runTimeTable timeTable (lowerList q) = _
  rw [runTimeTable_eq_runDayRules,
      show (timeTable.map fun e => (e.1, ruleOfMult e.1 e.2)) = amendedDayTable by decide]

/-- C5 (counterexample): the claimed rule table is wrong twice — the code's
table has a bare 'N weeks' rule ("3 weeks" gives 21, the claimed table gives
None), and the 'today' rule raises an IndexError (its handler reads group 1
of a pattern with no groups) instead of giving 1. -/
theorem day_extractor_counterexample :
    _extract_time_period_from_query "3 weeks" = .ok (some 21) ∧
    runDayRules claimedDayTable (lowerList "3 weeks") = .ok none ∧
    _extract_time_period_from_query "today" = .error () ∧
    runDayRules claimedDayTable (lowerList "today") = .ok (some 1) := by
  decide

/-- C6: the magnitude extractor tries the six explicit numeric threshold
patterns before the qualitative words 'significant' (4.5), 'major' (6.0),
'minor' (2.0), first match wins; in particular "significant magnitude 7+
earthquake" yields 7.0, not 4.5. -/
theorem magnitude_extractor_precedence :
    (∀ q : String,
      _extract_magnitude_from_query q =
        optOr (runMagTable magNumericTable (lowerList q))
              (runMagTable magQualTable (lowerList q))) ∧
    _extract_magnitude_from_query "significant magnitude 7+ earthquake" = some 7 ∧
    (7 : ℚ) ≠ 4.5 := by
  refine ⟨fun q => ?_, by decide, by norm_num⟩
  show runMagTable magTable (lowerList q) = _
  rw [show magTable = magNumericTable ++ magQualTable from rfl, runMagTable_append]

/-- C7 (amended): when the first radius rule that matches is the miles rule
'within N miles', the extractor returns N·1.60934 truncated to an integer
(Python `int()`, i.e. the floor), not rounded; in particular "within 200
miles" yields ⌊200·1.60934⌋ = 321. -/
theorem radius_miles_conversion (q : String) (caps : List (List Char))
    (h1 : search patWithinKm (lowerList q) = none)
    (h2 : search patKmRadius (lowerList q) = none)
    (h3 : search patKilometers (lowerList q) = none)
    (h4 : search patWithinMiles (lowerList q) = some caps) :
    _extract_radius_from_query q = some (milesToKm (parseNatChars (caps.headD []))) ∧
    ∀ n : Nat, milesToKm n = ⌊(n : ℚ) * (160934 / 100000 : ℚ)⌋₊ := by
  constructor
  · show runRadiusTable radiusTable (lowerList q) = _
    simp only [radiusTable, runRadiusTable, h1, h2, h3, h4, if_true]
  · intro n
    have hcast : (n : ℚ) * (160934 / 100000 : ℚ) =
        ((n * 160934 : ℕ) : ℚ) / ((100000 : ℕ) : ℚ) := by
      push_cast
      ring
    rw [hcast, Nat.floor_div_nat, Nat.floor_natCast]
    rfl

/-- C7 (witness): the amended conversion at the concrete input "within 200
miles": the three kilometre rules do not match, the miles rule captures 200,
and the result is 321. -/
theorem radius_miles_conversion_witness :
    _extract_radius_from_query "within 200 miles" = some (milesToKm 200) ∧
    milesToKm 200 = 321 :=
  ⟨(radius_miles_conversion "within 200 miles" [strL "200"]
      (by decide) (by decide) (by decide) (by decide)).1, by decide⟩

/-- C7 (counterexample): "within 200 miles" yields 321 = ⌊200·1.60934⌋, not
round(200·1.60934) = 322 as claimed; and a text matching 'within N miles' is
not even converted from miles when an earlier kilometre rule also matches. -/
theorem radius_miles_counterexample :
    _extract_radius_from_query "within 200 miles" = some 321 ∧
    (321 : Nat) ≠ 322 ∧
    _extract_radius_from_query "within 1 km within 200 miles" = some 1 := by
  decide

/-- C8: the box returned by the Boundary Resolver is the centre of the first
geocoding result plus/minus a feature-dependent half-width on both axes: 5°
for the country codes PCLI/PCL, 2° for ADM1, 0.5° for the populated-place
codes PPL/PPLA/PPLC, and the caller-supplied `padding_degrees` (default 1°)
for anything else. -/
theorem dynamic_boundaries_padding (loc : LocationMatch) (pad : ℚ) :
    (get_dynamic_boundaries loc pad).min_lat
        = loc.latitude - specPadding loc.feature_code pad ∧
    (get_dynamic_boundaries loc pad).max_lat
        = loc.latitude + specPadding loc.feature_code pad ∧
    (get_dynamic_boundaries loc pad).min_lon
        = loc.longitude - specPadding loc.feature_code pad ∧
    (get_dynamic_boundaries loc pad).max_lon
        = loc.longitude + specPadding loc.feature_code pad := by
  simp only [get_dynamic_boundaries, specPadding, Bool.or_eq_true, beq_iff_eq, or_assoc]
  split_ifs <;> simp

/-- C9: every entry of the static region table has `min_lat < max_lat`, but
the "pacific" entry spans longitudes 120.0 to -70.0 with `min_lon > max_lon`
(antimeridian wraparound), so the naive containment test
`min_lon ≤ x ≤ max_lon` matches no longitude at all for it. -/
theorem region_table_invariant :
    (∀ e ∈ region_boundaries, e.2.min_lat < e.2.max_lat) ∧
    _get_region_boundaries (strL "pacific") = some ⟨-60.0, 70.0, 120.0, -70.0⟩ ∧
    (RegionBox.max_lon ⟨-60.0, 70.0, 120.0, -70.0⟩
      < RegionBox.min_lon ⟨-60.0, 70.0, 120.0, -70.0⟩) ∧
    {x : ℚ | RegionBox.min_lon ⟨-60.0, 70.0, 120.0, -70.0⟩ ≤ x ∧
             x ≤ RegionBox.max_lon ⟨-60.0, 70.0, 120.0, -70.0⟩} = ∅ := by
  refine ⟨?_, rfl, by norm_num, ?_⟩
  · intro e he
    fin_cases he <;> norm_num
  · ext x
    simp only [Set.mem_setOf_eq, Set.mem_empty_iff_false, iff_false, not_and, not_le]
    intro h1
    have h120 : (120.0 : ℚ) ≤ x := h1
    have : (-70.0 : ℚ) < (120.0 : ℚ) := by norm_num
    linarith

/-- C10 (amended): for every query from which a location is extracted, no
radius is extracted, and the day-count extraction does not raise (see C5's
broken 'today' rule), with no overrides given, `smart_earthquake_search`
defaults the radius to 500 km and issues a circular (maxradiuskm) search,
while `smart_location_earthquake_query` leaves the radius unset and issues a
rectangular bounding-box search via the dynamic boundaries. -/
theorem smart_search_strategy_divergence (q : String) (l : List Char)
    (hloc : _extract_location_from_query q = some l)
    (hrad : _extract_radius_from_query q = none)
    (hday : _extract_time_period_from_query q ≠ .error ()) :
    (smart_earthquake_search q emptyOverrides).map SmartParams.plan =
      .ok (.circular l 500) ∧
    (smart_location_earthquake_query q).map SmartLocParams.plan =
      .ok (.rectangular l) := by
  have hne : l ≠ [] := runLocationTable_ne_nil hloc
  obtain ⟨c, l', rfl⟩ : ∃ c l', l = c :: l' := by
    cases l with
    | nil => exact absurd rfl hne
    | cons c l' => exact ⟨c, l', rfl⟩
  obtain ⟨d, hd⟩ : ∃ d, _extract_time_period_from_query q = .ok d := by
    cases hq : _extract_time_period_from_query q with
    | error e => cases e; exact absurd hq hday
    | ok d => exact ⟨d, rfl⟩
  constructor
  · simp only [smart_earthquake_search, emptyOverrides, truthyStr, truthyNat, truthyRat,
          hloc, hrad, hd, Bool.false_eq_true, if_false]
    rfl
  · simp only [smart_location_earthquake_query, hloc, hrad, hd]
    rfl

/-- C10 (witness): on "earthquakes in japan last week" the location "japan" is
extracted, no radius is extracted, the day extractor yields 7, and the two
entry points build a circular-with-500km and a rectangular plan respectively. -/
theorem smart_search_strategy_divergence_witness :
    (smart_earthquake_search "earthquakes in japan last week" emptyOverrides).map
        SmartParams.plan = .ok (.circular (strL "japan") 500) ∧
    (smart_location_earthquake_query "earthquakes in japan last week").map
        SmartLocParams.plan = .ok (.rectangular (strL "japan")) :=
  smart_search_strategy_divergence "earthquakes in japan last week" (strL "japan")
    (by decide) (by decide) (by decide)

/-- C1 (amended): for every reference date and every N ≥ 1 such that the
start year stays at or after the source's minimum year 1940, resolving
"past N years" succeeds with start = January 1 of (today.year − N) and
end = today − 5 days (the embargo). -/
theorem past_years_resolution (today : Date) (n : Nat)
    (htoday : dateValid today = true) (hn : 1 ≤ n)
    (hmin : 1940 ≤ today.year - (n : Int)) :
    get_historical_weather_dates (some (pastYearsExpr n)) none none today =
      .ok (⟨today.year - (n : Int), 1, 1⟩, subDays today 5) := by
  have hty : 1 ≤ today.year ∧ today.year ≤ 9999 := by
    simp only [dateValid, Bool.and_eq_true, decide_eq_true_eq] at htoday
    exact ⟨htoday.1.2, htoday.2⟩
  have hparse : parseTimePeriod (pastYearsExpr n) today
      = .ok (⟨today.year - (n : Int), 1, 1⟩, subDays today 5) := by
    unfold parseTimePeriod
    rw [map_lower_pastYears, stripChars_pastYears]
    simp only [contains_past_pastYears, Bool.true_or, if_true, firstNum_pastYears,
               contains_year_pastYears, parseNat_natDigits]
    rw [if_neg (by simp only [Bool.or_eq_true, decide_eq_true_eq, not_or]; omega)]
  have hvs : dateValid ⟨today.year - (n : Int), 1, 1⟩ = true := by
    simp only [dateValid, dateValidMD, Bool.and_eq_true, decide_eq_true_eq]
    refine ⟨⟨⟨⟨⟨by omega, by omega⟩, by omega⟩, ?_⟩, by omega⟩, by omega⟩
    rw [show daysInMonth (today.year - (n : Int)) 1 = 31 from rfl]
    omega
  have hve : dateValid (subDays today 5) = true :=
    dateValid_subDays htoday (by omega)
  simp only [get_historical_weather_dates]
  rw [if_neg (by rw [show (pastYearsExpr n).isEmpty = false from rfl]; simp), hparse]
  dsimp only
  unfold validateDateRange
  rw [hvs, hve]
  simp only [Bool.and_self, Bool.not_true, Bool.false_eq_true, if_false]
  rw [dateLt_irrefl]
  simp only [Bool.false_eq_true, if_false]
  rw [if_neg (by show ¬(today.year - (n : Int) < 1940); omega)]

/-- C1 (witness): for today = 2025-06-20 and N = 5, "past 5 years" resolves
to start = 2020-01-01 and end = 2025-06-15, as the claim's boundary example
states. -/
theorem past_years_resolution_witness :
    get_historical_weather_dates (some (strL "past 5 years")) none none ⟨2025, 6, 20⟩ =
      .ok (⟨2020, 1, 1⟩, ⟨2025, 6, 15⟩) := by
  have h := past_years_resolution ⟨2025, 6, 20⟩ 5 (by decide) (by decide) (by decide)
  rw [show subDays ⟨2025, 6, 20⟩ 5 = ⟨2025, 6, 15⟩ from by decide] at h
  exact h

/-- C1 (counterexample): the claim's "for every integer N ≥ 1 ... succeeds"
is false — for N = 90 and today = 2025-06-20 the start year 1935 predates
1940 and the resolver returns the too-old error instead of succeeding. -/
theorem past_years_counterexample :
    1 ≤ 90 ∧
    get_historical_weather_dates (some (strL "past 90 years")) none none ⟨2025, 6, 20⟩ =
      .error .tooOld := by
  decide

/-- C3 (amended): for every explicitly given valid range, the resolver's two
validity checks run in a fixed order — if end > today − 5 days it returns the
too-recent error; otherwise, if start.year < 1940 it returns the too-old
error; otherwise it succeeds with exactly the given dates (never silently
clamped). -/
theorem validity_window_checks (s e today : Date)
    (hs : dateValid s = true) (he : dateValid e = true) :
    (dateLt (subDays today 5) e = true →
      get_historical_weather_dates none (some s) (some e) today = .error .tooRecent) ∧
    (dateLt (subDays today 5) e = false → s.year < 1940 →
      get_historical_weather_dates none (some s) (some e) today = .error .tooOld) ∧
    (dateLt (subDays today 5) e = false → 1940 ≤ s.year →
      get_historical_weather_dates none (some s) (some e) today = .ok (s, e)) := by
  have hnotbad : (!(dateValid s && dateValid e)) = false := by rw [hs, he]; rfl
  refine ⟨fun h1 => ?_, fun h1 h2 => ?_, fun h1 h2 => ?_⟩ <;>
    · show validateDateRange s e today = _
      unfold validateDateRange
      rw [hnotbad]
      simp only [Bool.false_eq_true, if_false]
      first
        | rw [if_pos h1]
        | (rw [h1]
           simp only [Bool.false_eq_true, if_false]
           first
             | rw [if_pos h2]
             | rw [if_neg (by omega)])

/-- C3 (witness): the explicit range 1940-01-01..1940-12-31 passes validation
unchanged, while the same range shifted to 1939 fails with the too-old error
(reference date 2025-06-20). -/
theorem validity_window_checks_witness :
    get_historical_weather_dates none (some ⟨1940, 1, 1⟩) (some ⟨1940, 12, 31⟩)
        ⟨2025, 6, 20⟩ = .ok (⟨1940, 1, 1⟩, ⟨1940, 12, 31⟩) ∧
    get_historical_weather_dates none (some ⟨1939, 1, 1⟩) (some ⟨1939, 12, 31⟩)
        ⟨2025, 6, 20⟩ = .error .tooOld :=
  ⟨(validity_window_checks ⟨1940, 1, 1⟩ ⟨1940, 12, 31⟩ ⟨2025, 6, 20⟩
      (by decide) (by decide)).2.2 (by decide) (by decide),
   (validity_window_checks ⟨1939, 1, 1⟩ ⟨1939, 12, 31⟩ ⟨2025, 6, 20⟩
      (by decide) (by decide)).2.1 (by decide) (by decide)⟩

/-- C3 (counterexample): when a range violates both checks (start year 1939
and end inside the embargo window), the resolver returns the too-recent
error, not the too-old error the claim's second conditional demands. -/
theorem validity_order_counterexample :
    get_historical_weather_dates none (some ⟨1939, 1, 1⟩) (some ⟨2025, 6, 20⟩)
        ⟨2025, 6, 20⟩ = .error .tooRecent ∧
    Date.year ⟨1939, 1, 1⟩ < 1940 ∧
    get_historical_weather_dates none (some ⟨1939, 1, 1⟩) (some ⟨2025, 6, 20⟩)
        ⟨2025, 6, 20⟩ ≠ .error .tooOld := by
  decide

/-- C4 (amended): for every four-digit year Y with 1940 ≤ Y ≤ 9999 whose
December 31 lies at or before today − 5 days (the embargo), resolving the
year string succeeds with start = Y-01-01 and end = Y-12-31. -/
theorem single_year_resolution (today : Date) (y : Nat)
    (_htoday : dateValid today = true) (h1 : 1940 ≤ y) (h2 : y ≤ 9999)
    (hemb : dateLt (subDays today 5) ⟨(y : Int), 12, 31⟩ = false) :
    get_historical_weather_dates (some (natDigits y)) none none today =
      .ok (⟨(y : Int), 1, 1⟩, ⟨(y : Int), 12, 31⟩) := by
  have hparse : parseTimePeriod (natDigits y) today
      = .ok (⟨(y : Int), 1, 1⟩, ⟨(y : Int), 12, 31⟩) := by
    unfold parseTimePeriod
    rw [map_lower_digits (natDigits_all_digit y),
        stripChars_nonspace fun c hc => isSpaceChar_digit (natDigits_all_digit y c hc)]
    dsimp only
    rw [containsSub_digits_of_head (by decide)
          (fun c hc => by injection hc with hc; subst hc; decide) (natDigits_all_digit y),
        containsSub_digits_of_head (by decide)
          (fun c hc => by injection hc with hc; subst hc; decide) (natDigits_all_digit y),
        containsSub_digits_of_head (by decide)
          (fun c hc => by injection hc with hc; subst hc; decide) (natDigits_all_digit y)]
    have hfd : isFourDigits (natDigits y) = true := by
      unfold isFourDigits
      rw [natDigits_len_four (by omega) h2]
      simp only [List.all_eq_true, Bool.and_eq_true, beq_self_eq_true, true_and]
      exact natDigits_all_digit y
    simp only [Bool.or_self, Bool.false_eq_true, if_false, hfd, if_true,
               parseNat_natDigits]
    rw [if_neg (by show ¬((y : Int) < 1); omega)]
  have hvs : dateValid ⟨(y : Int), 1, 1⟩ = true := by
    simp only [dateValid, dateValidMD, Bool.and_eq_true, decide_eq_true_eq]
    refine ⟨⟨⟨⟨⟨by omega, by omega⟩, by omega⟩, ?_⟩, by omega⟩, by omega⟩
    rw [show daysInMonth (y : Int) 1 = 31 from rfl]
    omega
  have hve : dateValid ⟨(y : Int), 12, 31⟩ = true := by
    simp only [dateValid, dateValidMD, Bool.and_eq_true, decide_eq_true_eq]
    refine ⟨⟨⟨⟨⟨by omega, by omega⟩, by omega⟩, ?_⟩, by omega⟩, by omega⟩
    rw [daysInMonth_twelve]
  have hne : ¬(natDigits y).isEmpty = true := by
    rw [List.isEmpty_iff]
    exact natDigits_ne_nil y
  simp only [get_historical_weather_dates]
  rw [if_neg hne, hparse]
  dsimp only
  unfold validateDateRange
  rw [hvs, hve]
  simp only [Bool.and_self, Bool.not_true, Bool.false_eq_true, if_false]
  rw [hemb]
  simp only [Bool.false_eq_true, if_false]
  rw [if_neg (by show ¬((y : Int) < 1940); omega)]

/-- C4 (witness): for today = 2025-06-20, the year string "2023" resolves to
2023-01-01..2023-12-31. -/
theorem single_year_resolution_witness :
    get_historical_weather_dates (some (strL "2023")) none none ⟨2025, 6, 20⟩ =
      .ok (⟨2023, 1, 1⟩, ⟨2023, 12, 31⟩) :=
  single_year_resolution ⟨2025, 6, 20⟩ 2023 (by decide) (by decide) (by decide) (by decide)

/-- C4 (counterexample): the claim's range "1940 ≤ Y ≤ today.year" is wrong
at its upper end — for today = 2025-06-20 (so Y = today.year = 2025 is in the
claimed range) the resolver rejects "2025" with the too-recent error, because
December 31 of the current year always lies inside the 5-day embargo. -/
theorem single_year_counterexample :
    get_historical_weather_dates (some (strL "2025")) none none ⟨2025, 6, 20⟩ =
      .error .tooRecent := by
  decide

/-- C10 (counterexample): the claim's "for every query ..." fails on
"earthquakes in texas today": a location is extracted and no radius is
extracted, yet `smart_earthquake_search` issues no search at all — the broken
'today' day-count rule raises and the function returns an error result. -/
theorem smart_search_strategy_counterexample :
    _extract_location_from_query "earthquakes in texas today" = some (strL "texas") ∧
    _extract_radius_from_query "earthquakes in texas today" = none ∧
    smart_earthquake_search "earthquakes in texas today" emptyOverrides = .error () ∧
    smart_location_earthquake_query "earthquakes in texas today" = .error () := by
  decide

end WeatherAgent
